import Mathlib

/-!
Shallow embedding of the CSV bulk-import pipeline of the hospital-management
web application: the client-side CSV parsers (`parsePatientCSV`,
`parseVisitCSV`, `parsePrescriptionCSV` from the csvParser module), the
chunked uploaders of the admin and doctor upload pages (`chunkArray`,
`uploadChunks`, `uploadPrescriptions`), and the upload gating performed by
their `handleFile` handlers.

Modelling conventions:
* JavaScript strings are Lean `String`s, manipulated through `String.data`
  so every operation evaluates by plain kernel reduction.
* JavaScript numbers are `Int` where the source uses `parseInt` and `Rat`
  where it uses `parseFloat` (decimal notation only; no field the
  validators inspect ever uses exponent notation, NaN stands for a failed
  parse and is modelled as `none`).
* The impure clock reads (`Date.now()` in the identifier fallbacks and
  `new Date().toISOString().split('T')[0]` in the date fallbacks) are made
  explicit parameters `now : Nat` and `today : String` of the parsers.
* A thrown exception is `none` (parsers) or `Except.error` (uploader); the
  network is a response function `Nat → List α → ChunkResp` giving the
  server reply to the k-th bulk-insert request of a run.
-/

/- ---------- JavaScript string primitives ---------- -/

/-- JS `String.prototype.trim` (the whitespace the inputs use: space, tab,
carriage return, newline). -/
def jsTrim (s : String) : String :=
  String.mk (((s.data.dropWhile Char.isWhitespace).reverse.dropWhile Char.isWhitespace).reverse)

/-- JS `String.prototype.split` with a one-character separator: `"".split`
gives `[""]`, a trailing separator gives a trailing `""`. -/
def jsSplitChar (sep : Char) (s : String) : List String :=
  (s.data.splitOn sep).map String.mk

/-- Boolean prefix test on character lists. -/
def isPrefixB : List Char → List Char → Bool
  | [], _ => true
  | _ :: _, [] => false
  | a :: as, b :: bs => a == b && isPrefixB as bs

/-- Boolean substring test on character lists. -/
def containsSubB (pat : List Char) : List Char → Bool
  | [] => isPrefixB pat []
  | c :: rest => isPrefixB pat (c :: rest) || containsSubB pat rest

/-- JS `String.prototype.includes`. -/
def jsIncludes (s pat : String) : Bool := containsSubB pat.data s.data

/-- JS `String.prototype.startsWith`. -/
def jsStartsWith (s pre : String) : Bool := isPrefixB pre.data s.data

/-- JS `String.prototype.endsWith`. -/
def jsEndsWith (s suf : String) : Bool := isPrefixB suf.data.reverse s.data.reverse

/-- JS `s.slice(1, -1)`: drop the first and the last character (empty when
the string has at most one character). -/
def jsSliceDropEnds (s : String) : String :=
  String.mk ((s.data.drop 1).dropLast)

/-- Value of a list of decimal digit characters. -/
def digitsToNatAux (acc : Nat) : List Char → Nat
  | [] => acc
  | c :: rest => digitsToNatAux (acc * 10 + (c.toNat - 48)) rest

/-- Leading decimal-integer parse of an already-trimmed string, JS
`parseInt(s)`; `none` is NaN.  (The hexadecimal `0x` form accepted by
`parseInt` is not modelled; no caller feeds it.) -/
def jsParseInt (s : String) : Option Int :=
  let core (l : List Char) : Option Nat :=
    let ds := l.takeWhile Char.isDigit
    if ds = [] then none else some (digitsToNatAux 0 ds)
  match s.data with
  | '-' :: rest => (core rest).map (fun n => -(n : Int))
  | '+' :: rest => (core rest).map (fun n => (n : Int))
  | l => (core l).map (fun n => (n : Int))

/-- Leading decimal-float parse of an already-trimmed string, JS
`parseFloat(s)`; `none` is NaN.  (Exponent notation and `Infinity` are not
modelled; no caller feeds them.) -/
def jsParseFloat (s : String) : Option Rat :=
  let parse (l : List Char) : Option Rat :=
    let ip := l.takeWhile Char.isDigit
    let rest := l.dropWhile Char.isDigit
    let fp := match rest with
      | '.' :: r2 => r2.takeWhile Char.isDigit
      | _ => []
    if ip = [] ∧ fp = [] then none
    else some ((digitsToNatAux 0 ip : Rat) + (digitsToNatAux 0 fp : Rat) / ((10 : Rat) ^ fp.length))
  match s.data with
  | '-' :: rest => (parse rest).map (fun q => -q)
  | '+' :: rest => parse rest
  | l => parse l

/-- JS `v || d` for strings: the empty string is falsy. -/
def jsOr (v d : String) : String := if v = "" then d else v

/-- JS `parseFloat(v) || d`: NaN and ±0 are falsy, so both fall back. -/
def jsParseFloatOr (v : String) (d : Rat) : Rat :=
  match jsParseFloat v with
  | none => d
  | some q => if q = 0 then d else q

/-- JS `values[i]` on a string array, with out-of-range `undefined`
collapsed to `""` (both are falsy and both fail the `=== 'true'` style
comparisons the source performs on them). -/
def getCol (values : List String) (i : Nat) : String := values.getD i ""

/- ---------- Data model (types/hospital, import-relevant fields) ---------- -/

structure Patient where
  patient_id : String
  full_name : String
  age : Int
  gender : String
  blood_group : String
  phone_number : String
  email : String
  emergency_contact : String
  hospital_location : String
  bmi : Rat
  smoker_status : Bool
  alcohol_use : Bool
  chronic_conditions : List String
  registration_date : String
  insurance_type : String
deriving DecidableEq

structure Visit where
  visit_id : String
  patient_id : String
  doctor_id : String
  visit_date : String
  severity_score : Int
  visit_type : String
  length_of_stay : Int
  lab_result_glucose : Rat
  lab_result_bp : String
  previous_visit_gap_days : Int
  readmitted_30_days : Bool
  visit_cost : Rat
deriving DecidableEq

structure CSVError where
  row : Nat
  message : String
deriving DecidableEq

structure CSVSummary where
  total : Nat
  valid : Nat
  invalid : Nat
deriving DecidableEq

structure CSVParseResult (T : Type) where
  valid : List T
  errors : List CSVError
  summary : CSVSummary
deriving DecidableEq

/- ---------- Row tokenizer (shared shape of both parsers) ---------- -/

/-- `csvText.split('\n').filter(line => line.trim() !== '')`. -/
def filteredLines (csvText : String) : List String :=
  (jsSplitChar '\n' csvText).filter (fun l => jsTrim l != "")

/-- `1` when the first retained line contains the header key (the parser
then skips it), `0` otherwise; `0` when there is no line at all (the source
would have thrown before reaching the loop). -/
def headerSkip (csvText key : String) : Nat :=
  match filteredLines csvText with
  | [] => 0
  | l0 :: _ => if jsIncludes l0 key then 1 else 0

/-- The data lines the parser loop visits, i.e. the retained lines minus a
detected header. -/
def dataLines (csvText key : String) : List String :=
  (filteredLines csvText).drop (headerSkip csvText key)

/-- Number of data rows remaining after header detection. -/
def dataRowCount (csvText key : String) : Nat :=
  (dataLines csvText key).length

/-- `line.split(',').map(v => v.trim())` applied to the trimmed line. -/
def rowValues (rawLine : String) : List String :=
  (jsSplitChar ',' (jsTrim rawLine)).map jsTrim

/-- The `for` loop of both parsers: fold the per-row function over the data
lines, pushing each accepted record to `valid` and each rejection to
`errors`, in encounter order; `none` outcomes (`if (!line) continue`) are
skipped. -/
def processRows {T : Type} (f : Nat → String → Option (T ⊕ CSVError)) :
    Nat → List String → List T × List CSVError
  | _, [] => ([], [])
  | i, l :: rest =>
    let r := processRows f (i + 1) rest
    match f i l with
    | none => r
    | some (Sum.inl v) => (v :: r.1, r.2)
    | some (Sum.inr e) => (r.1, e :: r.2)

/- ---------- Patient parser ---------- -/

/-- `chronic_conditions` coercion: `values[12] || 'None'`, strip one
leading and one trailing quote when the value both starts and ends with a
double quote, then split on `;` trimming each element; an empty remainder
yields `['None']`. -/
def coerceChronic (v12 : String) : List String :=
  let cc0 := jsOr v12 "None"
  let cc := if jsStartsWith cc0 "\"" && jsEndsWith cc0 "\"" then jsSliceDropEnds cc0 else cc0
  if cc = "" then ["None"] else (jsSplitChar ';' cc).map jsTrim

/-- The `const patient = { ... }` record built from the row's fields. -/
def coercePatient (now : Nat) (today : String) (i : Nat) (values : List String) : Patient :=
  { patient_id := jsOr (getCol values 0) ("PAT" ++ toString now ++ "_" ++ toString i)
  , full_name := jsOr (getCol values 1) "Unknown"
  , age := (jsParseInt (getCol values 2)).getD 0
  , gender := jsOr (getCol values 3) "Unknown"
  , blood_group := jsOr (getCol values 4) "O+"
  , phone_number := jsOr (getCol values 5) "0000000000"
  , email := getCol values 6
  , emergency_contact := jsOr (getCol values 7) "0000000000"
  , hospital_location := jsOr (getCol values 8) "Main Hospital"
  , bmi := jsParseFloatOr (getCol values 9) (45 / 2 : Rat)
  , smoker_status := getCol values 10 == "true" || getCol values 10 == "1"
  , alcohol_use := getCol values 11 == "true" || getCol values 11 == "1"
  , chronic_conditions := coerceChronic (getCol values 12)
  , registration_date := jsOr (getCol values 13) today
  , insurance_type := jsOr (getCol values 14) "Basic" }

/-- The `// Validate` if/else-if chain of `parsePatientCSV`. -/
def validatePatient (existingPatientIds : List String) (i : Nat) (p : Patient) :
    Patient ⊕ CSVError :=
  if p.patient_id = "" then Sum.inr ⟨i + 1, "Missing patient_id"⟩
  else if p.patient_id ∈ existingPatientIds then
    Sum.inr ⟨i + 1, "Duplicate patient_id: " ++ p.patient_id⟩
  else if p.full_name = "" ∨ p.full_name = "Unknown" then Sum.inr ⟨i + 1, "Missing full_name"⟩
  else if p.age = 0 ∨ p.age ≤ 0 then Sum.inr ⟨i + 1, "Invalid age"⟩
  else Sum.inl p

/-- One iteration of the `parsePatientCSV` loop body.  The `try/catch`
around the body is not modelled: every operation the body performs on
strings and numbers is total, so the `catch` branch is unreachable. -/
def processPatientRow (existingPatientIds : List String) (now : Nat) (today : String)
    (i : Nat) (rawLine : String) : Option (Patient ⊕ CSVError) :=
  let line := jsTrim rawLine
  if line = "" then none
  else
    let values := (jsSplitChar ',' line).map jsTrim
    some (validatePatient existingPatientIds i (coercePatient now today i values))

/-- `parsePatientCSV(csvText, existingPatientIds)`.  `none` models the
`TypeError` thrown by `lines[0].includes('patient_id')` when every line of
the file is blank. -/
def parsePatientCSV (csvText : String) (existingPatientIds : List String)
    (now : Nat) (today : String) : Option (CSVParseResult Patient) :=
  match filteredLines csvText with
  | [] => none
  | l0 :: rest =>
    let startIndex := if jsIncludes l0 "patient_id" then 1 else 0
    let pr := processRows (processPatientRow existingPatientIds now today)
      startIndex ((l0 :: rest).drop startIndex)
    some { valid := pr.1
         , errors := pr.2
         , summary := { total := (l0 :: rest).length - startIndex
                      , valid := pr.1.length
                      , invalid := pr.2.length } }

/- ---------- Visit parser ---------- -/

/-- The `const visit = { ... }` record built from the row's fields. -/
def coerceVisit (now : Nat) (today : String) (i : Nat) (values : List String) : Visit :=
  { visit_id := jsOr (getCol values 0) ("VIS" ++ toString now ++ "_" ++ toString i)
  , patient_id := getCol values 1
  , doctor_id := getCol values 2
  , visit_date := jsOr (getCol values 3) today
  , severity_score := (jsParseInt (getCol values 4)).getD 0
  , visit_type := if getCol values 5 == "IP" then "IP" else "OP"
  , length_of_stay := (jsParseInt (getCol values 6)).getD 0
  , lab_result_glucose := jsParseFloatOr (getCol values 7) 0
  , lab_result_bp := jsOr (getCol values 8) "120/80"
  , previous_visit_gap_days := (jsParseInt (getCol values 9)).getD 0
  , readmitted_30_days := getCol values 10 == "true" || getCol values 10 == "1"
  , visit_cost := jsParseFloatOr (getCol values 11) 0 }

/-- The `// Validate` if/else-if chain of `parseVisitCSV`. -/
def validateVisit (existingVisitIds existingPatientIds existingDoctorIds : List String)
    (i : Nat) (v : Visit) : Visit ⊕ CSVError :=
  if v.visit_id = "" then Sum.inr ⟨i + 1, "Missing visit_id"⟩
  else if v.visit_id ∈ existingVisitIds then
    Sum.inr ⟨i + 1, "Duplicate visit_id: " ++ v.visit_id⟩
  else if v.patient_id = "" then Sum.inr ⟨i + 1, "Missing patient_id"⟩
  else if v.patient_id ∉ existingPatientIds then
    Sum.inr ⟨i + 1, "Patient not found: " ++ v.patient_id⟩
  else if v.doctor_id = "" then Sum.inr ⟨i + 1, "Missing doctor_id"⟩
  else if v.doctor_id ∉ existingDoctorIds then
    Sum.inr ⟨i + 1, "Doctor not found: " ++ v.doctor_id⟩
  else if v.severity_score < 0 ∨ v.severity_score > 5 then
    Sum.inr ⟨i + 1, "Invalid severity_score: " ++ toString v.severity_score ++ ". Must be 0-5"⟩
  else Sum.inl v

/-- One iteration of the `parseVisitCSV` loop body (again the `try/catch`
branch is unreachable: the body is total). -/
def processVisitRow (existingVisitIds existingPatientIds existingDoctorIds : List String)
    (now : Nat) (today : String) (i : Nat) (rawLine : String) : Option (Visit ⊕ CSVError) :=
  let line := jsTrim rawLine
  if line = "" then none
  else
    let values := (jsSplitChar ',' line).map jsTrim
    some (validateVisit existingVisitIds existingPatientIds existingDoctorIds i
      (coerceVisit now today i values))

/-- `parseVisitCSV(csvText, existingVisitIds, existingPatientIds,
existingDoctorIds)`; `none` models the `TypeError` on an all-blank file. -/
def parseVisitCSV (csvText : String)
    (existingVisitIds existingPatientIds existingDoctorIds : List String)
    (now : Nat) (today : String) : Option (CSVParseResult Visit) :=
  match filteredLines csvText with
  | [] => none
  | l0 :: rest =>
    let startIndex := if jsIncludes l0 "visit_id" then 1 else 0
    let pr := processRows
      (processVisitRow existingVisitIds existingPatientIds existingDoctorIds now today)
      startIndex ((l0 :: rest).drop startIndex)
    some { valid := pr.1
         , errors := pr.2
         , summary := { total := (l0 :: rest).length - startIndex
                      , valid := pr.1.length
                      , invalid := pr.2.length } }

/- ---------- Prescription parser ---------- -/

/-- `parsePrescriptionCSV` as it stands in the source: a stub that ignores
every argument and returns an empty result (`valid: [], errors: [],
summary: {total: 0, valid: 0, invalid: 0}`).  The source's element type
`any` is rendered as `Unit`. -/
def parsePrescriptionCSV (csvText : String)
    (existingPrescriptionIds existingPatientIds existingDoctorIds existingVisitIds : List String) :
    CSVParseResult Unit :=
  { valid := [], errors := [], summary := { total := 0, valid := 0, invalid := 0 } }

/- ---------- Chunked uploaders ---------- -/

/-- `chunkArray(array, size)`: contiguous slices of at most `size` elements.
The structural fuel is the list length, which suffices for every positive
`size`; for `size = 0` the JS source would loop forever, a case no caller
exercises (both pages use 500). -/
def chunkArrayGo {α : Type} (size : Nat) : Nat → List α → List (List α)
  | 0, _ => []
  | _, [] => []
  | fuel + 1, a :: rest => ((a :: rest).take size) :: chunkArrayGo size fuel ((a :: rest).drop size)

def chunkArray {α : Type} (size : Nat) (l : List α) : List (List α) :=
  chunkArrayGo size l.length l

/-- Server reply to one bulk-insert request: `ok count` is a 2xx response
whose JSON body may or may not carry a `count`; `fail msg` is a non-2xx
response whose body text / message is `msg`. -/
inductive ChunkResp where
  | ok (count : Option Nat)
  | fail (msg : String)
deriving DecidableEq

def ChunkResp.isOk : ChunkResp → Bool
  | .ok _ => true
  | .fail _ => false

/-- Number a response contributes to the running total: `data.count ??
chunk.length` on success, nothing on failure. -/
def respSaved (r : ChunkResp) (chunkLen : Nat) : Nat :=
  match r with
  | .ok count => count.getD chunkLen
  | .fail _ => 0

deriving instance DecidableEq for Except

/-- Observable outcome of one admin upload run: the chunks for which a
request was actually issued, in order, and the thrown message or the
accumulated total. -/
structure UploadRun (α : Type) where
  sent : List (List α)
  result : Except String Nat
deriving DecidableEq

/-- Loop of the admin page's `uploadChunks`: on a non-ok response it throws
`new Error(msg || 'Bulk upload failed')` and issues no further request. -/
def uploadChunksGo {α : Type} (server : Nat → List α → ChunkResp) :
    Nat → Nat → List (List α) → UploadRun α
  | _, saved, [] => ⟨[], Except.ok saved⟩
  | k, saved, c :: rest =>
    match server k c with
    | .fail msg => ⟨[c], Except.error (if msg = "" then "Bulk upload failed" else msg)⟩
    | .ok count =>
      let r := uploadChunksGo server (k + 1) (saved + count.getD c.length) rest
      ⟨c :: r.sent, r.result⟩

/-- `uploadChunks(url, chunks)` of the admin CSV page (the `url` is folded
into `server`); chunking uses the default size 500. -/
def uploadChunks {α : Type} (server : Nat → List α → ChunkResp) (records : List α) :
    UploadRun α :=
  uploadChunksGo server 0 0 (chunkArray 500 records)

/-- Loop of the doctor page's `uploadPrescriptions`: a failed chunk is
caught, reported via toast, and skipped — the remaining chunks are still
attempted.  Returns the accumulated total and the chunks sent. -/
def uploadPrescriptionsGo {α : Type} (server : Nat → List α → ChunkResp) :
    Nat → Nat → List (List α) → Nat × List (List α)
  | _, uploaded, [] => (uploaded, [])
  | k, uploaded, c :: rest =>
    let next :=
      match server k c with
      | .fail _ => uploaded
      | .ok count => uploaded + count.getD c.length
    let r := uploadPrescriptionsGo server (k + 1) next rest
    (r.1, c :: r.2)

/-- `uploadPrescriptions(prescriptions)` of the doctor CSV page,
`CHUNK_SIZE = 500`. -/
def uploadPrescriptions {α : Type} (server : Nat → List α → ChunkResp)
    (prescriptions : List α) : Nat × List (List α) :=
  uploadPrescriptionsGo server 0 0 (chunkArray 500 prescriptions)

/- ---------- Upload gating in the two handleFile handlers ---------- -/

/-- Chunks the admin `handleFile` sends for a given parsed `valid` list:
the upload step runs only under `if (parseResult.valid.length > 0)`. -/
def adminHandleFileUploads {α : Type} (server : Nat → List α → ChunkResp)
    (valid : List α) : List (List α) :=
  if valid.length > 0 then (uploadChunks server valid).sent else []

/-- Chunks the doctor `handleFile` sends: it returns early (with a warning
toast) when `parseResult.valid.length === 0`. -/
def doctorHandleFileUploads {α : Type} (server : Nat → List α → ChunkResp)
    (valid : List α) : List (List α) :=
  if valid.length = 0 then [] else (uploadPrescriptions server valid).2

/- ---------- Validation rules, claim-level description ---------- -/

/-- The patient validation rules: identifier present, identifier not
already known, full name present and not the unknown sentinel, age > 0. -/
def patientOK (ids : List String) (p : Patient) : Prop :=
  p.patient_id ≠ "" ∧ p.patient_id ∉ ids ∧ p.full_name ≠ "" ∧ p.full_name ≠ "Unknown" ∧ 0 < p.age

/-- Messages of all violated patient rules, in the source's priority
order. -/
def patientViolationMsgs (ids : List String) (p : Patient) : List String :=
  (if p.patient_id = "" then ["Missing patient_id"] else []) ++
  (if p.patient_id ∈ ids then ["Duplicate patient_id: " ++ p.patient_id] else []) ++
  (if p.full_name = "" ∨ p.full_name = "Unknown" then ["Missing full_name"] else []) ++
  (if p.age = 0 ∨ p.age ≤ 0 then ["Invalid age"] else [])

/-- The visit validation rules: identifier present and not known,
`patient_id` present and known, `doctor_id` present and known,
severity score within `[0, 5]`. -/
def visitOK (vids pids dids : List String) (v : Visit) : Prop :=
  v.visit_id ≠ "" ∧ v.visit_id ∉ vids ∧
  v.patient_id ≠ "" ∧ v.patient_id ∈ pids ∧
  v.doctor_id ≠ "" ∧ v.doctor_id ∈ dids ∧
  0 ≤ v.severity_score ∧ v.severity_score ≤ 5

/-- Messages of all violated visit rules, in the source's priority order. -/
def visitViolationMsgs (vids pids dids : List String) (v : Visit) : List String :=
  (if v.visit_id = "" then ["Missing visit_id"] else []) ++
  (if v.visit_id ∈ vids then ["Duplicate visit_id: " ++ v.visit_id] else []) ++
  (if v.patient_id = "" then ["Missing patient_id"] else []) ++
  (if v.patient_id ∉ pids then ["Patient not found: " ++ v.patient_id] else []) ++
  (if v.doctor_id = "" then ["Missing doctor_id"] else []) ++
  (if v.doctor_id ∉ dids then ["Doctor not found: " ++ v.doctor_id] else []) ++
  (if v.severity_score < 0 ∨ v.severity_score > 5 then
    ["Invalid severity_score: " ++ toString v.severity_score ++ ". Must be 0-5"] else [])

theorem validatePatient_firstViolation (ids : List String) (i : Nat) (p : Patient) :
    validatePatient ids i p =
      (match patientViolationMsgs ids p with
       | [] => Sum.inl p
       | m :: _ => Sum.inr ⟨i + 1, m⟩) := by
  unfold validatePatient patientViolationMsgs
  split_ifs <;> simp_all

theorem patientViolationMsgs_nil_iff (ids : List String) (p : Patient) :
    patientViolationMsgs ids p = [] ↔ patientOK ids p := by
  have hage : (p.age = 0 ∨ p.age ≤ 0) ↔ ¬ (0 < p.age) := by omega
  unfold patientViolationMsgs patientOK
  simp only [hage]
  split_ifs with h1 h2 h3 h4 <;> simp_all <;> tauto

theorem validateVisit_firstViolation (vids pids dids : List String) (i : Nat) (v : Visit) :
    validateVisit vids pids dids i v =
      (match visitViolationMsgs vids pids dids v with
       | [] => Sum.inl v
       | m :: _ => Sum.inr ⟨i + 1, m⟩) := by
  unfold validateVisit visitViolationMsgs
  split_ifs <;> simp_all

theorem visitViolationMsgs_nil_iff (vids pids dids : List String) (v : Visit) :
    visitViolationMsgs vids pids dids v = [] ↔ visitOK vids pids dids v := by
  have hsev : (v.severity_score < 0 ∨ v.severity_score > 5) ↔
      ¬ (0 ≤ v.severity_score ∧ v.severity_score ≤ 5) := by omega
  unfold visitViolationMsgs visitOK
  simp only [hsev]
  split_ifs with h1 h2 h3 h4 h5 h6 h7 <;> simp_all <;> tauto

theorem validatePatient_inl (ids : List String) (i : Nat) (p q : Patient)
    (h : validatePatient ids i p = Sum.inl q) : q = p ∧ patientOK ids p := by
  rw [validatePatient_firstViolation] at h
  rcases hm : patientViolationMsgs ids p with _ | ⟨m, ms⟩
  · rw [hm] at h
    exact ⟨(Sum.inl.inj h).symm, (patientViolationMsgs_nil_iff ids p).mp hm⟩
  · rw [hm] at h
    exact absurd h (by simp)

theorem validateVisit_inl (vids pids dids : List String) (i : Nat) (v w : Visit)
    (h : validateVisit vids pids dids i v = Sum.inl w) : w = v ∧ visitOK vids pids dids v := by
  rw [validateVisit_firstViolation] at h
  rcases hm : visitViolationMsgs vids pids dids v with _ | ⟨m, ms⟩
  · rw [hm] at h
    exact ⟨(Sum.inl.inj h).symm, (visitViolationMsgs_nil_iff vids pids dids v).mp hm⟩
  · rw [hm] at h
    exact absurd h (by simp)

theorem validatePatient_inr_row (ids : List String) (i : Nat) (p : Patient) (e : CSVError)
    (h : validatePatient ids i p = Sum.inr e) : e.row = i + 1 := by
  unfold validatePatient at h
  split_ifs at h <;> simp_all <;> exact (congrArg CSVError.row h.symm)

theorem validateVisit_inr_row (vids pids dids : List String) (i : Nat) (v : Visit) (e : CSVError)
    (h : validateVisit vids pids dids i v = Sum.inr e) : e.row = i + 1 := by
  unfold validateVisit at h
  split_ifs at h <;> simp_all <;> exact (congrArg CSVError.row h.symm)

/- ---------- Fold lemmas ---------- -/

theorem processRows_length_add {T : Type} (f : Nat → String → Option (T ⊕ CSVError)) :
    ∀ (ls : List String) (s : Nat), (∀ i l, l ∈ ls → (f i l).isSome) →
      (processRows f s ls).1.length + (processRows f s ls).2.length = ls.length := by
  intro ls
  induction ls with
  | nil => intro s _; simp [processRows]
  | cons l rest ih =>
    intro s h
    have hrec := ih (s + 1) (fun i l hm => h i l (List.mem_cons_of_mem _ hm))
    have hl := h s l (List.mem_cons_self _ _)
    cases hfl : f s l with
    | none => rw [hfl] at hl; simp at hl
    | some x =>
      cases x with
      | inl v => simp [processRows, hfl]; omega
      | inr e => simp [processRows, hfl]; omega

theorem processRows_congr {T : Type} (f g : Nat → String → Option (T ⊕ CSVError)) :
    ∀ (ls : List String) (s : Nat), (∀ i l, l ∈ ls → f i l = g i l) →
      processRows f s ls = processRows g s ls := by
  intro ls
  induction ls with
  | nil => intro s _; rfl
  | cons l rest ih =>
    intro s h
    have hrec := ih (s + 1) (fun i l hm => h i l (List.mem_cons_of_mem _ hm))
    have hl := h s l (List.mem_cons_self _ _)
    simp only [processRows, hrec, hl]

theorem processRows_valid_mem {T : Type} (f : Nat → String → Option (T ⊕ CSVError)) :
    ∀ (ls : List String) (s : Nat) (p : T), p ∈ (processRows f s ls).1 →
      ∃ i l, l ∈ ls ∧ f i l = some (Sum.inl p) := by
  intro ls
  induction ls with
  | nil => intro s p h; simp [processRows] at h
  | cons l rest ih =>
    intro s p h
    cases hfl : f s l with
    | none =>
      rw [show processRows f s (l :: rest) = processRows f (s + 1) rest by
        simp only [processRows, hfl]] at h
      obtain ⟨i, l', hm, he⟩ := ih (s + 1) p h
      exact ⟨i, l', List.mem_cons_of_mem _ hm, he⟩
    | some x =>
      cases x with
      | inl v =>
        rw [show processRows f s (l :: rest) =
            (v :: (processRows f (s + 1) rest).1, (processRows f (s + 1) rest).2) by
          simp only [processRows, hfl]] at h
        rcases List.mem_cons.mp h with hv | hv
        · exact ⟨s, l, List.mem_cons_self _ _, by rw [hfl, hv]⟩
        · obtain ⟨i, l', hm, he⟩ := ih (s + 1) p hv
          exact ⟨i, l', List.mem_cons_of_mem _ hm, he⟩
      | inr e =>
        rw [show processRows f s (l :: rest) =
            ((processRows f (s + 1) rest).1, e :: (processRows f (s + 1) rest).2) by
          simp only [processRows, hfl]] at h
        obtain ⟨i, l', hm, he⟩ := ih (s + 1) p h
        exact ⟨i, l', List.mem_cons_of_mem _ hm, he⟩

theorem processRows_errors_mem {T : Type} (f : Nat → String → Option (T ⊕ CSVError)) :
    ∀ (ls : List String) (s : Nat) (e : CSVError), e ∈ (processRows f s ls).2 →
      ∃ i, s ≤ i ∧ i < s + ls.length ∧ f i (ls.getD (i - s) "") = some (Sum.inr e) := by
  intro ls
  induction ls with
  | nil => intro s e h; simp [processRows] at h
  | cons l rest ih =>
    intro s e h
    cases hfl : f s l with
    | none =>
      rw [show processRows f s (l :: rest) = processRows f (s + 1) rest by
        simp only [processRows, hfl]] at h
      obtain ⟨i, h1, h2, h3⟩ := ih (s + 1) e h
      refine ⟨i, by omega, by simp; omega, ?_⟩
      rw [show i - s = (i - (s + 1)) + 1 by omega, List.getD_cons_succ]
      exact h3
    | some x =>
      cases x with
      | inl v =>
        rw [show processRows f s (l :: rest) =
            (v :: (processRows f (s + 1) rest).1, (processRows f (s + 1) rest).2) by
          simp only [processRows, hfl]] at h
        obtain ⟨i, h1, h2, h3⟩ := ih (s + 1) e h
        refine ⟨i, by omega, by simp; omega, ?_⟩
        rw [show i - s = (i - (s + 1)) + 1 by omega, List.getD_cons_succ]
        exact h3
      | inr e' =>
        rw [show processRows f s (l :: rest) =
            ((processRows f (s + 1) rest).1, e' :: (processRows f (s + 1) rest).2) by
          simp only [processRows, hfl]] at h
        rcases List.mem_cons.mp h with hv | hv
        · exact ⟨s, le_refl s, by simp, by simpa [hv] using hfl⟩
        · obtain ⟨i, h1, h2, h3⟩ := ih (s + 1) e hv
          refine ⟨i, by omega, by simp; omega, ?_⟩
          rw [show i - s = (i - (s + 1)) + 1 by omega, List.getD_cons_succ]
          exact h3

/- ---------- Row-level lemmas ---------- -/

theorem mem_filteredLines (csv l : String) (h : l ∈ filteredLines csv) : jsTrim l ≠ "" := by
  unfold filteredLines at h
  have := (List.mem_filter.mp h).2
  simpa using this

theorem processPatientRow_isSome (ids : List String) (now : Nat) (today : String)
    (i : Nat) (l : String) (h : jsTrim l ≠ "") :
    (processPatientRow ids now today i l).isSome := by
  simp [processPatientRow, h]

theorem processVisitRow_isSome (vids pids dids : List String) (now : Nat) (today : String)
    (i : Nat) (l : String) (h : jsTrim l ≠ "") :
    (processVisitRow vids pids dids now today i l).isSome := by
  simp [processVisitRow, h]

theorem processPatientRow_inl (ids : List String) (now : Nat) (today : String)
    (i : Nat) (l : String) (p : Patient)
    (h : processPatientRow ids now today i l = some (Sum.inl p)) : patientOK ids p := by
  unfold processPatientRow at h
  by_cases ht : jsTrim l = ""
  · simp [ht] at h
  · simp only [if_neg ht] at h
    obtain ⟨hq, hOK⟩ := validatePatient_inl _ _ _ _ (Option.some.inj h)
    rw [hq]
    exact hOK

theorem processVisitRow_inl (vids pids dids : List String) (now : Nat) (today : String)
    (i : Nat) (l : String) (v : Visit)
    (h : processVisitRow vids pids dids now today i l = some (Sum.inl v)) :
    visitOK vids pids dids v := by
  unfold processVisitRow at h
  by_cases ht : jsTrim l = ""
  · simp [ht] at h
  · simp only [if_neg ht] at h
    obtain ⟨hq, hOK⟩ := validateVisit_inl _ _ _ _ _ _ (Option.some.inj h)
    rw [hq]
    exact hOK

theorem processPatientRow_inr_row (ids : List String) (now : Nat) (today : String)
    (i : Nat) (l : String) (e : CSVError)
    (h : processPatientRow ids now today i l = some (Sum.inr e)) : e.row = i + 1 := by
  unfold processPatientRow at h
  by_cases ht : jsTrim l = ""
  · simp [ht] at h
  · simp only [if_neg ht] at h
    exact validatePatient_inr_row _ _ _ _ (Option.some.inj h)

theorem getD_drop (ls : List String) (s j : Nat) :
    (ls.drop s).getD j "" = ls.getD (s + j) "" := by
  simp [List.getD, List.getElem?_drop]

/- ---------- Parse-level lemmas ---------- -/

theorem parsePatient_facts (csv : String) (ids : List String) (now : Nat) (today : String)
    (r : CSVParseResult Patient) (h : parsePatientCSV csv ids now today = some r) :
    r.summary.valid = r.valid.length ∧
    r.summary.invalid = r.errors.length ∧
    r.valid.length + r.errors.length = r.summary.total ∧
    r.summary.total = dataRowCount csv "patient_id" ∧
    (∀ p ∈ r.valid, patientOK ids p) := by
  cases hl : filteredLines csv with
  | nil => rw [parsePatientCSV, hl] at h; exact absurd h (by simp)
  | cons l0 rest =>
    rw [parsePatientCSV, hl] at h
    simp only [Option.some.injEq] at h
    subst h
    have hsome : ∀ i l, l ∈ (l0 :: rest).drop (if jsIncludes l0 "patient_id" then 1 else 0) →
        ((processPatientRow ids now today) i l).isSome := by
      intro i l hm
      exact processPatientRow_isSome ids now today i l
        (mem_filteredLines csv l (by rw [hl]; exact List.drop_subset _ _ hm))
    have hlen := processRows_length_add (processPatientRow ids now today)
      ((l0 :: rest).drop (if jsIncludes l0 "patient_id" then 1 else 0))
      (if jsIncludes l0 "patient_id" then 1 else 0) hsome
    refine ⟨rfl, rfl, ?_, ?_, ?_⟩
    · simpa [List.length_drop] using hlen
    · simp [dataRowCount, dataLines, headerSkip, hl, List.length_drop]
    · intro p hp
      obtain ⟨i, l, _, he⟩ := processRows_valid_mem _ _ _ p hp
      exact processPatientRow_inl ids now today i l p he

theorem parseVisit_facts (csv : String) (vids pids dids : List String) (now : Nat) (today : String)
    (r : CSVParseResult Visit) (h : parseVisitCSV csv vids pids dids now today = some r) :
    r.summary.valid = r.valid.length ∧
    r.summary.invalid = r.errors.length ∧
    r.valid.length + r.errors.length = r.summary.total ∧
    r.summary.total = dataRowCount csv "visit_id" ∧
    (∀ v ∈ r.valid, visitOK vids pids dids v) := by
  cases hl : filteredLines csv with
  | nil => rw [parseVisitCSV, hl] at h; exact absurd h (by simp)
  | cons l0 rest =>
    rw [parseVisitCSV, hl] at h
    simp only [Option.some.injEq] at h
    subst h
    have hsome : ∀ i l, l ∈ (l0 :: rest).drop (if jsIncludes l0 "visit_id" then 1 else 0) →
        ((processVisitRow vids pids dids now today) i l).isSome := by
      intro i l hm
      exact processVisitRow_isSome vids pids dids now today i l
        (mem_filteredLines csv l (by rw [hl]; exact List.drop_subset _ _ hm))
    have hlen := processRows_length_add (processVisitRow vids pids dids now today)
      ((l0 :: rest).drop (if jsIncludes l0 "visit_id" then 1 else 0))
      (if jsIncludes l0 "visit_id" then 1 else 0) hsome
    refine ⟨rfl, rfl, ?_, ?_, ?_⟩
    · simpa [List.length_drop] using hlen
    · simp [dataRowCount, dataLines, headerSkip, hl, List.length_drop]
    · intro v hv
      obtain ⟨i, l, _, he⟩ := processRows_valid_mem _ _ _ v hv
      exact processVisitRow_inl vids pids dids now today i l v he

theorem parsePatient_errors_facts (csv : String) (ids : List String) (now : Nat) (today : String)
    (r : CSVParseResult Patient) (h : parsePatientCSV csv ids now today = some r) :
    ∀ e ∈ r.errors,
      headerSkip csv "patient_id" + 1 ≤ e.row ∧
      e.row ≤ (filteredLines csv).length ∧
      processPatientRow ids now today (e.row - 1)
        ((filteredLines csv).getD (e.row - 1) "") = some (Sum.inr e) := by
  cases hl : filteredLines csv with
  | nil => rw [parsePatientCSV, hl] at h; exact absurd h (by simp)
  | cons l0 rest =>
    rw [parsePatientCSV, hl] at h
    simp only [Option.some.injEq] at h
    subst h
    intro e he
    obtain ⟨i, h1, h2, h3⟩ := processRows_errors_mem _ _ _ e he
    rw [getD_drop] at h3
    have hieq : (if jsIncludes l0 "patient_id" then 1 else 0) + (i - (if jsIncludes l0 "patient_id" then 1 else 0)) = i := by omega
    rw [hieq] at h3
    have hrow : e.row = i + 1 := processPatientRow_inr_row _ _ _ _ _ _ h3
    have hskip : headerSkip csv "patient_id" = (if jsIncludes l0 "patient_id" then 1 else 0) := by
      simp [headerSkip, hl]
    refine ⟨by omega, ?_, ?_⟩
    · have := List.length_drop (if jsIncludes l0 "patient_id" then 1 else 0) (l0 :: rest)
      omega
    · rw [show e.row - 1 = i by omega]
      exact h3

/- ---------- Time-independence lemmas ---------- -/

theorem coercePatient_time_indep (now now' : Nat) (today today' : String)
    (i : Nat) (values : List String)
    (h0 : getCol values 0 ≠ "") (h13 : getCol values 13 ≠ "") :
    coercePatient now today i values = coercePatient now' today' i values := by
  simp [coercePatient, jsOr, h0, h13]

theorem coerceVisit_time_indep (now now' : Nat) (today today' : String)
    (i : Nat) (values : List String)
    (h0 : getCol values 0 ≠ "") (h3 : getCol values 3 ≠ "") :
    coerceVisit now today i values = coerceVisit now' today' i values := by
  simp [coerceVisit, jsOr, h0, h3]

theorem processPatientRow_time_indep (ids : List String) (now now' : Nat)
    (today today' : String) (i : Nat) (l : String)
    (h0 : getCol (rowValues l) 0 ≠ "") (h13 : getCol (rowValues l) 13 ≠ "") :
    processPatientRow ids now today i l = processPatientRow ids now' today' i l := by
  simp only [rowValues] at h0 h13
  by_cases ht : jsTrim l = ""
  · simp [processPatientRow, ht]
  · simp only [processPatientRow, if_neg ht]
    rw [coercePatient_time_indep now now' today today' i _ h0 h13]

theorem processVisitRow_time_indep (vids pids dids : List String) (now now' : Nat)
    (today today' : String) (i : Nat) (l : String)
    (h0 : getCol (rowValues l) 0 ≠ "") (h3 : getCol (rowValues l) 3 ≠ "") :
    processVisitRow vids pids dids now today i l =
      processVisitRow vids pids dids now' today' i l := by
  simp only [rowValues] at h0 h3
  by_cases ht : jsTrim l = ""
  · simp [processVisitRow, ht]
  · simp only [processVisitRow, if_neg ht]
    rw [coerceVisit_time_indep now now' today today' i _ h0 h3]

theorem parsePatientCSV_time_indep (csv : String) (ids : List String)
    (now now' : Nat) (today today' : String)
    (h : ∀ l ∈ dataLines csv "patient_id",
      getCol (rowValues l) 0 ≠ "" ∧ getCol (rowValues l) 13 ≠ "") :
    parsePatientCSV csv ids now today = parsePatientCSV csv ids now' today' := by
  cases hl : filteredLines csv with
  | nil => rw [parsePatientCSV, parsePatientCSV, hl]
  | cons l0 rest =>
    have hdl : dataLines csv "patient_id" =
        (l0 :: rest).drop (if jsIncludes l0 "patient_id" then 1 else 0) := by
      simp [dataLines, headerSkip, hl]
    rw [parsePatientCSV, parsePatientCSV, hl]
    have hcongr := processRows_congr (processPatientRow ids now today)
      (processPatientRow ids now' today')
      ((l0 :: rest).drop (if jsIncludes l0 "patient_id" then 1 else 0))
      (if jsIncludes l0 "patient_id" then 1 else 0)
      (fun i l hm => by
        have hml := h l (by rw [hdl]; exact hm)
        exact processPatientRow_time_indep ids now now' today today' i l hml.1 hml.2)
    simp only [hcongr]

theorem parseVisitCSV_time_indep (csv : String) (vids pids dids : List String)
    (now now' : Nat) (today today' : String)
    (h : ∀ l ∈ dataLines csv "visit_id",
      getCol (rowValues l) 0 ≠ "" ∧ getCol (rowValues l) 3 ≠ "") :
    parseVisitCSV csv vids pids dids now today =
      parseVisitCSV csv vids pids dids now' today' := by
  cases hl : filteredLines csv with
  | nil => rw [parseVisitCSV, parseVisitCSV, hl]
  | cons l0 rest =>
    have hdl : dataLines csv "visit_id" =
        (l0 :: rest).drop (if jsIncludes l0 "visit_id" then 1 else 0) := by
      simp [dataLines, headerSkip, hl]
    rw [parseVisitCSV, parseVisitCSV, hl]
    have hcongr := processRows_congr (processVisitRow vids pids dids now today)
      (processVisitRow vids pids dids now' today')
      ((l0 :: rest).drop (if jsIncludes l0 "visit_id" then 1 else 0))
      (if jsIncludes l0 "visit_id" then 1 else 0)
      (fun i l hm => by
        have hml := h l (by rw [hdl]; exact hm)
        exact processVisitRow_time_indep vids pids dids now now' today today' i l hml.1 hml.2)
    simp only [hcongr]

/- ---------- Chunking lemmas ---------- -/

theorem chunkArrayGo_fuel_irrel {α : Type} (size : Nat) (hs : 0 < size) :
    ∀ (fuel fuel' : Nat) (l : List α), l.length ≤ fuel → l.length ≤ fuel' →
      chunkArrayGo size fuel l = chunkArrayGo size fuel' l := by
  intro fuel
  induction fuel with
  | zero =>
    intro fuel' l h _
    have : l = [] := List.eq_nil_of_length_eq_zero (Nat.le_zero.mp h)
    subst this
    cases fuel' <;> rfl
  | succ f ih =>
    intro fuel' l h h'
    cases l with
    | nil => cases fuel' <;> rfl
    | cons a rest =>
      cases fuel' with
      | zero => simp at h'
      | succ f' =>
        simp only [chunkArrayGo]
        congr 1
        apply ih
        · simp only [List.length_drop, List.length_cons] at h ⊢
          omega
        · simp only [List.length_drop, List.length_cons] at h' ⊢
          omega

theorem chunkArray_cons {α : Type} (size : Nat) (hs : 0 < size) (a : α) (rest : List α) :
    chunkArray size (a :: rest) =
      (a :: rest).take size :: chunkArray size ((a :: rest).drop size) := by
  unfold chunkArray
  simp only [List.length_cons, chunkArrayGo]
  congr 1
  apply chunkArrayGo_fuel_irrel size hs
  · simp only [List.length_drop, List.length_cons]
    omega
  · exact le_refl _

theorem chunkArray_flatten_aux {α : Type} (size : Nat) (hs : 0 < size) :
    ∀ (n : Nat) (l : List α), l.length ≤ n → (chunkArray size l).flatten = l := by
  intro n
  induction n with
  | zero =>
    intro l h
    have : l = [] := List.eq_nil_of_length_eq_zero (Nat.le_zero.mp h)
    subst this
    rfl
  | succ m ih =>
    intro l h
    cases l with
    | nil => rfl
    | cons a rest =>
      rw [chunkArray_cons size hs]
      simp only [List.flatten_cons]
      rw [ih ((a :: rest).drop size) (by simp only [List.length_drop, List.length_cons] at h ⊢; omega)]
      exact List.take_append_drop size (a :: rest)

theorem chunkArray_flatten {α : Type} (size : Nat) (hs : 0 < size) (l : List α) :
    (chunkArray size l).flatten = l :=
  chunkArray_flatten_aux size hs l.length l (le_refl _)

theorem chunkArray_chunk_le_aux {α : Type} (size : Nat) (hs : 0 < size) :
    ∀ (n : Nat) (l : List α), l.length ≤ n → ∀ c ∈ chunkArray size l, c.length ≤ size := by
  intro n
  induction n with
  | zero =>
    intro l h c hc
    have : l = [] := List.eq_nil_of_length_eq_zero (Nat.le_zero.mp h)
    subst this
    simp [chunkArray, chunkArrayGo] at hc
  | succ m ih =>
    intro l h c hc
    cases l with
    | nil => simp [chunkArray, chunkArrayGo] at hc
    | cons a rest =>
      rw [chunkArray_cons size hs] at hc
      rcases List.mem_cons.mp hc with hc | hc
      · rw [hc]
        simp [List.length_take]
      · exact ih ((a :: rest).drop size)
          (by simp only [List.length_drop, List.length_cons] at h ⊢; omega) c hc

theorem chunkArray_chunk_le {α : Type} (size : Nat) (hs : 0 < size) (l : List α) :
    ∀ c ∈ chunkArray size l, c.length ≤ size :=
  chunkArray_chunk_le_aux size hs l.length l (le_refl _)

/- ---------- Uploader lemmas ---------- -/

theorem uploadChunksGo_abort {α : Type} (server : Nat → List α → ChunkResp)
    (c : List α) (msg : String) (post : List (List α)) :
    ∀ (pre : List (List α)) (k saved : Nat),
      (∀ i, i < pre.length → (server (k + i) (pre.getD i [])).isOk = true) →
      server (k + pre.length) c = ChunkResp.fail msg →
      uploadChunksGo server k saved (pre ++ c :: post) =
        ⟨pre ++ [c], Except.error (if msg = "" then "Bulk upload failed" else msg)⟩ := by
  intro pre
  induction pre with
  | nil =>
    intro k saved _ hf
    simp only [List.length_nil, Nat.add_zero] at hf
    simp [uploadChunksGo, hf]
  | cons p ps ih =>
    intro k saved hok hf
    have hp := hok 0 (by simp)
    cases hcp : server k p with
    | fail m => rw [show server (k + 0) (List.getD (p :: ps) 0 []) = server k p by simp,
        hcp] at hp; simp [ChunkResp.isOk] at hp
    | ok cnt =>
      simp only [List.cons_append, uploadChunksGo, hcp, List.append_eq]
      have hok2 : ∀ i, i < ps.length → (server (k + 1 + i) (ps.getD i [])).isOk = true := by
        intro i hi
        have := hok (i + 1) (by simp; omega)
        rw [show k + 1 + i = k + (i + 1) by omega]
        simpa [List.getD_cons_succ] using this
      have hf2 : server (k + 1 + ps.length) c = ChunkResp.fail msg := by
        rw [show k + 1 + ps.length = k + (p :: ps).length by simp; omega]
        exact hf
      rw [ih (k + 1) (saved + cnt.getD p.length) hok2 hf2]

theorem uploadChunksGo_allOk {α : Type} (server : Nat → List α → ChunkResp) :
    ∀ (chunks : List (List α)) (k saved : Nat),
      (∀ i, i < chunks.length → (server (k + i) (chunks.getD i [])).isOk = true) →
      (uploadChunksGo server k saved chunks).sent = chunks := by
  intro chunks
  induction chunks with
  | nil => intro k saved _; rfl
  | cons c rest ih =>
    intro k saved hok
    have hp := hok 0 (by simp)
    cases hc : server k c with
    | fail m => rw [show server (k + 0) (List.getD (c :: rest) 0 []) = server k c by simp,
        hc] at hp; simp [ChunkResp.isOk] at hp
    | ok cnt =>
      simp only [uploadChunksGo, hc]
      have hok2 : ∀ i, i < rest.length → (server (k + 1 + i) (rest.getD i [])).isOk = true := by
        intro i hi
        have := hok (i + 1) (by simp; omega)
        rw [show k + 1 + i = k + (i + 1) by omega]
        simpa [List.getD_cons_succ] using this
      simp [ih (k + 1) (saved + cnt.getD c.length) hok2]

theorem uploadPrescriptionsGo_spec {α : Type} (server : Nat → List α → ChunkResp) :
    ∀ (chunks : List (List α)) (k u : Nat),
      (uploadPrescriptionsGo server k u chunks).2 = chunks ∧
      (uploadPrescriptionsGo server k u chunks).1 =
        u + ((chunks.enumFrom k).map (fun q => respSaved (server q.1 q.2) q.2.length)).sum := by
  intro chunks
  induction chunks with
  | nil => intro k u; exact ⟨rfl, by simp [uploadPrescriptionsGo, List.enumFrom]⟩
  | cons c rest ih =>
    intro k u
    constructor
    · cases hc : server k c <;>
        simp [uploadPrescriptionsGo, hc, (ih (k + 1) _).1]
    · cases hc : server k c with
      | ok cnt =>
        simp only [uploadPrescriptionsGo, hc, List.enumFrom, List.map_cons, List.sum_cons]
        rw [(ih (k + 1) (u + cnt.getD c.length)).2]
        simp [respSaved, hc]
        omega
      | fail m =>
        simp only [uploadPrescriptionsGo, hc, List.enumFrom, List.map_cons, List.sum_cons]
        rw [(ih (k + 1) u).2]
        simp [respSaved, hc]

/- ---------- Concrete inputs used by witnesses ---------- -/

/-- A fully-populated, valid patient CSV row. -/
def csvW : String := "P1,Alice,30,Male,O+,123,a@b,456,Loc,22.5,true,false,None,2024-01-01,Basic"

/-- The record `parsePatientCSV` builds from `csvW` (the `bmi` field is
written as the coercion expression itself, which evaluates to `45/2`). -/
def patientW : Patient :=
  { patient_id := "P1", full_name := "Alice", age := 30, gender := "Male"
  , blood_group := "O+", phone_number := "123", email := "a@b"
  , emergency_contact := "456", hospital_location := "Loc"
  , bmi := jsParseFloatOr "22.5" (45 / 2 : Rat)
  , smoker_status := true, alcohol_use := false, chronic_conditions := ["None"]
  , registration_date := "2024-01-01", insurance_type := "Basic" }

def patientResW : CSVParseResult Patient :=
  { valid := [patientW], errors := [], summary := ⟨1, 1, 0⟩ }

/-- A valid visit CSV row (patient `P1` and doctor `D1` known). -/
def visitCsvW : String := "V1,P1,D1,2024-01-01,3"

def visitW : Visit :=
  { visit_id := "V1", patient_id := "P1", doctor_id := "D1"
  , visit_date := "2024-01-01", severity_score := 3, visit_type := "OP"
  , length_of_stay := 0, lab_result_glucose := 0, lab_result_bp := "120/80"
  , previous_visit_gap_days := 0, readmitted_30_days := false, visit_cost := 0 }

def visitResW : CSVParseResult Visit :=
  { valid := [visitW], errors := [], summary := ⟨1, 1, 0⟩ }

/-- A server that fails every bulk-insert request with message `boom`. -/
def servBoomW : Nat → List Nat → ChunkResp := fun _ _ => ChunkResp.fail "boom"

/-- A server that accepts every bulk-insert request without a count. -/
def servOkW : Nat → List Nat → ChunkResp := fun _ _ => ChunkResp.ok none

/- ---------- Claims ---------- -/

/-- Claim C1, amended.  For `parsePatientCSV` and `parseVisitCSV`, whenever a
result is returned, `summary.valid + summary.invalid = summary.total` and
`summary.total` equals the number of data rows remaining after header
detection.  `parsePrescriptionCSV`, however, is an empty stub: its summary is
always zero, so the sum identity holds for it but its `total` does not track
the data rows of the input (see the counterexample). -/
theorem c1_summary_amended (csv : String)
    (pids vids kpids kdids prids ppids pdids pvids : List String)
    (now : Nat) (today : String) :
    (∀ r : CSVParseResult Patient, parsePatientCSV csv pids now today = some r →
      r.summary.valid + r.summary.invalid = r.summary.total ∧
      r.summary.total = dataRowCount csv "patient_id") ∧
    (∀ r : CSVParseResult Visit, parseVisitCSV csv vids kpids kdids now today = some r →
      r.summary.valid + r.summary.invalid = r.summary.total ∧
      r.summary.total = dataRowCount csv "visit_id") ∧
    (parsePrescriptionCSV csv prids ppids pdids pvids).summary = ⟨0, 0, 0⟩ := by
  refine ⟨?_, ?_, rfl⟩
  · intro r h
    obtain ⟨h1, h2, h3, h4, _⟩ := parsePatient_facts csv pids now today r h
    exact ⟨by omega, h4⟩
  · intro r h
    obtain ⟨h1, h2, h3, h4, _⟩ := parseVisit_facts csv vids kpids kdids now today r h
    exact ⟨by omega, h4⟩

/-- Witness for C1: concrete one-row patient and visit files, and the
prescription stub. -/
theorem c1_summary_amended_witness :
    parsePatientCSV csvW [] 0 "D" = some patientResW ∧
    patientResW.summary.valid + patientResW.summary.invalid = patientResW.summary.total ∧
    patientResW.summary.total = dataRowCount csvW "patient_id" ∧
    parseVisitCSV visitCsvW [] ["P1"] ["D1"] 0 "D" = some visitResW ∧
    visitResW.summary.valid + visitResW.summary.invalid = visitResW.summary.total ∧
    visitResW.summary.total = dataRowCount visitCsvW "visit_id" ∧
    (parsePrescriptionCSV csvW [] [] [] []).summary = ⟨0, 0, 0⟩ := by
  have hp := (c1_summary_amended csvW [] [] [] [] [] [] [] [] 0 "D").1 patientResW (by rfl)
  have hv := (c1_summary_amended visitCsvW [] [] ["P1"] ["D1"] [] [] [] [] 0 "D").2.1
    visitResW (by rfl)
  exact ⟨by rfl, hp.1, hp.2, by rfl, hv.1, hv.2, rfl⟩

/-- Counterexample for C1 as stated: a prescription file with one data row
for which `parsePrescriptionCSV` reports `total = 0`, not `1`. -/
theorem c1_summary_counterexample :
    (parsePrescriptionCSV "PRE001,VIS001" [] [] [] []).summary.total ≠
      dataRowCount "PRE001,VIS001" "prescription_id" ∧
    dataRowCount "PRE001,VIS001" "prescription_id" = 1 ∧
    (parsePrescriptionCSV "PRE001,VIS001" [] [] [] []).summary.total = 0 := by
  exact ⟨by decide, by decide, rfl⟩

/-- Claim C2 (code bug): `parsePrescriptionCSV` is an unimplemented stub.  On
a prescription CSV with one data row whose `visit_id` is among the issuing
doctor's visits, it returns empty `valid` and empty `errors` with a zero
summary — the row is neither accepted nor rejected, although the doctor
upload page calls this function expecting per-row validation. -/
theorem c2_prescription_stub_eval :
    parsePrescriptionCSV "PRE001,VIS001,PAT001,DOC001" ["PRE000"] ["PAT001"] ["DOC001"] ["VIS001"]
      = { valid := [], errors := [], summary := ⟨0, 0, 0⟩ } ∧
    dataRowCount "PRE001,VIS001,PAT001,DOC001" "prescription_id" = 1 :=
  ⟨rfl, by decide⟩

/-- Claim C3.  Each data row produces exactly one outcome: the if/else-if
validation chain of each parser equals the first entry of the violated-rule
list (in the fixed priority order), accepting the record exactly when no rule
is violated; consequently every parse result satisfies
`valid.length + errors.length = summary.total`, and every record of `valid`
satisfies all validation rules of its entity kind. -/
theorem c3_partition_first_violation (pids vids kpids kdids : List String)
    (now : Nat) (today : String) :
    (∀ (i : Nat) (p : Patient), validatePatient pids i p =
        (match patientViolationMsgs pids p with
         | [] => Sum.inl p
         | m :: _ => Sum.inr ⟨i + 1, m⟩)) ∧
    (∀ (i : Nat) (v : Visit), validateVisit vids kpids kdids i v =
        (match visitViolationMsgs vids kpids kdids v with
         | [] => Sum.inl v
         | m :: _ => Sum.inr ⟨i + 1, m⟩)) ∧
    (∀ (csv : String) (r : CSVParseResult Patient),
      parsePatientCSV csv pids now today = some r →
        r.valid.length + r.errors.length = r.summary.total ∧
        ∀ p ∈ r.valid, patientOK pids p) ∧
    (∀ (csv : String) (r : CSVParseResult Visit),
      parseVisitCSV csv vids kpids kdids now today = some r →
        r.valid.length + r.errors.length = r.summary.total ∧
        ∀ v ∈ r.valid, visitOK vids kpids kdids v) := by
  refine ⟨validatePatient_firstViolation pids,
    validateVisit_firstViolation vids kpids kdids, ?_, ?_⟩
  · intro csv r h
    obtain ⟨_, _, h3, _, h5⟩ := parsePatient_facts csv pids now today r h
    exact ⟨h3, h5⟩
  · intro csv r h
    obtain ⟨_, _, h3, _, h5⟩ := parseVisit_facts csv vids kpids kdids now today r h
    exact ⟨h3, h5⟩

/-- Witness for C3 at a concrete one-row patient file whose row is valid. -/
theorem c3_partition_first_violation_witness :
    parsePatientCSV csvW [] 0 "D" = some patientResW ∧
    patientResW.valid.length + patientResW.errors.length = patientResW.summary.total ∧
    patientOK [] patientW := by
  have h := (c3_partition_first_violation [] [] [] [] 0 "D").2.2.1 csvW patientResW (by rfl)
  exact ⟨by rfl, h.1, h.2 patientW (by simp [patientResW])⟩

/-- Counterexample for C4 as stated: in the file consisting of the lines
`patient_id`, a blank line, and `PAT1`, the offending line `PAT1` is the
third line of the original line list, yet the reported error row is 2 —
row numbers index the blank-line-filtered list, not the original one. -/
theorem c4_row_numbering_counterexample :
    parsePatientCSV "patient_id\n\nPAT1" [] 0 "D" =
      some { valid := [], errors := [⟨2, "Missing full_name"⟩], summary := ⟨1, 0, 1⟩ } ∧
    jsSplitChar '\n' "patient_id\n\nPAT1" = ["patient_id", "", "PAT1"] :=
  ⟨by rfl, by rfl⟩

/-- Claim C4, amended.  The row number attached to each error entry is the
1-based position of the offending line in the list of retained (non-blank)
lines, the header counted: every error has `headerSkip + 1 ≤ row`,
`row ≤ number of retained lines`, and re-running the loop body on the
`(row − 1)`-th retained line reproduces exactly this error.  This matches
the original line list only when no blank line precedes the offending
line. -/
theorem c4_row_numbering_amended (csv : String) (ids : List String)
    (now : Nat) (today : String) (r : CSVParseResult Patient)
    (h : parsePatientCSV csv ids now today = some r) :
    ∀ e ∈ r.errors,
      headerSkip csv "patient_id" + 1 ≤ e.row ∧
      e.row ≤ (filteredLines csv).length ∧
      processPatientRow ids now today (e.row - 1)
        ((filteredLines csv).getD (e.row - 1) "") = some (Sum.inr e) :=
  parsePatient_errors_facts csv ids now today r h

/-- Witness for C4 at the blank-line file of the counterexample. -/
theorem c4_row_numbering_amended_witness :
    headerSkip "patient_id\n\nPAT1" "patient_id" + 1 ≤ 2 ∧
    2 ≤ (filteredLines "patient_id\n\nPAT1").length ∧
    processPatientRow [] 0 "D" 1 ((filteredLines "patient_id\n\nPAT1").getD 1 "") =
      some (Sum.inr ⟨2, "Missing full_name"⟩) := by
  have h := c4_row_numbering_amended "patient_id\n\nPAT1" [] 0 "D"
    { valid := [], errors := [⟨2, "Missing full_name"⟩], summary := ⟨1, 0, 1⟩ } (by rfl)
    ⟨2, "Missing full_name"⟩ (by simp)
  exact h

/-- Claim C5.  When the response to some chunk is non-success (all earlier
responses succeeding), the admin uploader issues no further request and
throws the server message (with the `Bulk upload failed` fallback), while
the doctor uploader still sends every chunk and returns the sum of the
server-reported counts — falling back to the chunk length — of exactly the
successful chunks. -/
theorem c5_upload_failure_policies {α : Type} (server : Nat → List α → ChunkResp)
    (records : List α) (pre post : List (List α)) (c : List α) (msg : String)
    (hchunks : chunkArray 500 records = pre ++ c :: post)
    (hok : ∀ i, i < pre.length → (server i (pre.getD i [])).isOk = true)
    (hfail : server pre.length c = ChunkResp.fail msg) :
    (uploadChunks server records).sent = pre ++ [c] ∧
    (uploadChunks server records).result =
      Except.error (if msg = "" then "Bulk upload failed" else msg) ∧
    (uploadPrescriptions server records).2 = pre ++ c :: post ∧
    (uploadPrescriptions server records).1 =
      (((pre ++ c :: post).enumFrom 0).map
        (fun q => respSaved (server q.1 q.2) q.2.length)).sum := by
  unfold uploadChunks uploadPrescriptions
  rw [hchunks]
  have habort := uploadChunksGo_abort server c msg post pre 0 0
    (fun i hi => by simpa using hok i hi) (by simpa using hfail)
  have hp := uploadPrescriptionsGo_spec server (pre ++ c :: post) 0 0
  exact ⟨by rw [habort], by rw [habort], hp.1, by rw [hp.2]; simp⟩

/-- Witness for C5: a server failing its very first request, records fitting
in one chunk. -/
theorem c5_upload_failure_policies_witness :
    (uploadChunks servBoomW [1, 2, 3]).sent = [[1, 2, 3]] ∧
    (uploadChunks servBoomW [1, 2, 3]).result = Except.error "boom" ∧
    (uploadPrescriptions servBoomW [1, 2, 3]).2 = [[1, 2, 3]] ∧
    (uploadPrescriptions servBoomW [1, 2, 3]).1 = 0 := by
  have h := c5_upload_failure_policies servBoomW [1, 2, 3] [] [] [1, 2, 3] "boom"
    (by rfl) (fun i hi => absurd hi (by simp)) (by rfl)
  refine ⟨by rw [h.1]; rfl, by rw [h.2.1]; rfl, by rw [h.2.2.1]; rfl, by rw [h.2.2.2]; rfl⟩

/-- Counterexample for C6 as stated: the identifier fallback embeds the
current clock (`Date.now()`), so re-parsing a file whose row has an empty
`patient_id` field at a different time yields a different result even though
`csvText` and `knownIds` are unchanged. -/
theorem c6_determinism_counterexample :
    parsePatientCSV ",Alice,30" [] 0 "D" ≠ parsePatientCSV ",Alice,30" [] 1 "D" := by
  decide

/-- Claim C6, amended.  The parse is a pure function of `csvText`, the
`knownIds` snapshot, and the clock readings; whenever every data row has a
non-empty identifier field and a non-empty date field (columns 0 and 13 for
patients, 0 and 3 for visits), the clock is unused, and two invocations with
the same `csvText` and `knownIds` return identical results. -/
theorem c6_determinism_amended (csv : String) (pids vids kpids kdids : List String)
    (now now' : Nat) (today today' : String) :
    ((∀ l ∈ dataLines csv "patient_id",
        getCol (rowValues l) 0 ≠ "" ∧ getCol (rowValues l) 13 ≠ "") →
      parsePatientCSV csv pids now today = parsePatientCSV csv pids now' today') ∧
    ((∀ l ∈ dataLines csv "visit_id",
        getCol (rowValues l) 0 ≠ "" ∧ getCol (rowValues l) 3 ≠ "") →
      parseVisitCSV csv vids kpids kdids now today =
        parseVisitCSV csv vids kpids kdids now' today') :=
  ⟨parsePatientCSV_time_indep csv pids now now' today today',
   parseVisitCSV_time_indep csv vids kpids kdids now now' today today'⟩

/-- Witness for C6: one-row patient and visit files with populated
identifier and date fields, parsed under two different clock readings. -/
theorem c6_determinism_amended_witness :
    parsePatientCSV csvW [] 0 "D" = parsePatientCSV csvW [] 5 "E" ∧
    parseVisitCSV visitCsvW [] ["P1"] ["D1"] 0 "D" =
      parseVisitCSV visitCsvW [] ["P1"] ["D1"] 5 "E" :=
  ⟨(c6_determinism_amended csvW [] [] [] [] 0 5 "D" "E").1 (by decide),
   (c6_determinism_amended visitCsvW [] [] ["P1"] ["D1"] 0 5 "D" "E").2 (by decide)⟩

/-- Counterexample for C7 as stated: the raw field consisting of
`\"\"\"Diabetes;Asthma\"\"\"` (three quote characters on each side) keeps two
of its three quotes on each side after the single-quote strip, so the
produced list is not `[Diabetes, Asthma]`. -/
theorem c7_chronic_quotes_counterexample :
    coerceChronic "\"\"\"Diabetes;Asthma\"\"\"" ≠ ["Diabetes", "Asthma"] ∧
    coerceChronic "\"\"\"Diabetes;Asthma\"\"\"" = ["\"\"Diabetes", "Asthma\"\""] := by
  exact ⟨by decide, by rfl⟩

/-- Claim C7, amended.  A non-empty chronic-conditions field that begins and
ends with a double quote has exactly one leading and one trailing quote
stripped before the `;`-split with per-element trimming; the field
`\"Diabetes;Asthma\"` (one quote on each side) produces `[Diabetes, Asthma]`,
an emptied field produces `[None]`, and the list lands unchanged in the
parsed record. -/
theorem c7_chronic_quotes_amended :
    (∀ s : String, s ≠ "" → jsStartsWith s "\"" = true → jsEndsWith s "\"" = true →
      coerceChronic s =
        (if jsSliceDropEnds s = "" then ["None"]
         else (jsSplitChar ';' (jsSliceDropEnds s)).map jsTrim)) ∧
    coerceChronic "\"Diabetes;Asthma\"" = ["Diabetes", "Asthma"] ∧
    coerceChronic "\"\"" = ["None"] ∧
    ((parsePatientCSV
        "P1,Alice,30,Male,O+,123,a@b,456,Loc,22.5,true,false,\"Diabetes;Asthma\",2024-01-01,Basic"
        [] 0 "D").getD ⟨[], [], ⟨0, 0, 0⟩⟩).valid.map Patient.chronic_conditions =
      [["Diabetes", "Asthma"]] := by
  refine ⟨?_, by rfl, by rfl, by rfl⟩
  intro s hne h1 h2
  simp [coerceChronic, jsOr, hne, h1, h2]

/-- Witness for C7 at the singly-quoted field of the amended claim. -/
theorem c7_chronic_quotes_amended_witness :
    coerceChronic "\"Diabetes;Asthma\"" =
      (if jsSliceDropEnds "\"Diabetes;Asthma\"" = "" then ["None"]
       else (jsSplitChar ';' (jsSliceDropEnds "\"Diabetes;Asthma\"")).map jsTrim) ∧
    coerceChronic "\"Diabetes;Asthma\"" = ["Diabetes", "Asthma"] := by
  have h := (c7_chronic_quotes_amended).1 "\"Diabetes;Asthma\"" (by decide) (by rfl) (by rfl)
  exact ⟨h, by rfl⟩

set_option maxRecDepth 2000000 in
/-- Claim C8.  For every positive chunk size, `chunkArray` partitions the
record list into contiguous chunks of at most that size whose in-order
concatenation is the input; with 1200 records and size 500 the chunks have
sizes 500, 500, 200, the doctor uploader issues exactly these requests in
order, and so does the admin uploader while the server keeps succeeding. -/
theorem c8_chunking {α : Type} (size : Nat) (hs : 0 < size) (l : List α) :
    (∀ c ∈ chunkArray size l, c.length ≤ size) ∧
    (chunkArray size l).flatten = l ∧
    (chunkArray 500 (List.range 1200)).map List.length = [500, 500, 200] ∧
    (∀ server : Nat → List Nat → ChunkResp,
      (uploadPrescriptions server (List.range 1200)).2 = chunkArray 500 (List.range 1200)) ∧
    (∀ server : Nat → List Nat → ChunkResp, (∀ k c, (server k c).isOk = true) →
      (uploadChunks server (List.range 1200)).sent = chunkArray 500 (List.range 1200)) := by
  refine ⟨chunkArray_chunk_le size hs l, chunkArray_flatten size hs l, by rfl, ?_, ?_⟩
  · intro server
    exact (uploadPrescriptionsGo_spec server (chunkArray 500 (List.range 1200)) 0 0).1
  · intro server hok
    exact uploadChunksGo_allOk server (chunkArray 500 (List.range 1200)) 0 0
      (fun i _ => hok _ _)

/-- Witness for C8 at chunk size 500 on 1200 records. -/
theorem c8_chunking_witness :
    (chunkArray 500 (List.range 1200)).flatten = List.range 1200 ∧
    (chunkArray 500 (List.range 1200)).map List.length = [500, 500, 200] := by
  have h := c8_chunking 500 (by decide) (List.range 1200)
  exact ⟨h.2.1, h.2.2.1⟩

set_option maxRecDepth 4000000 in
/-- Claim C9.  With zero valid records both handlers skip the upload step
entirely — no bulk-insert request is issued — and the five-invalid-row file
yields the summary total 5, valid 0, invalid 5. -/
theorem c9_empty_valid_no_upload (α : Type) (server : Nat → List α → ChunkResp)
    (valid : List α) (hv : valid.length = 0) :
    adminHandleFileUploads server valid = [] ∧
    doctorHandleFileUploads server valid = [] ∧
    parsePatientCSV "patient_id,full_name\nP1\nP2\nP3\nP4\nP5" [] 0 "D" =
      some { valid := []
           , errors := [⟨2, "Missing full_name"⟩, ⟨3, "Missing full_name"⟩,
               ⟨4, "Missing full_name"⟩, ⟨5, "Missing full_name"⟩, ⟨6, "Missing full_name"⟩]
           , summary := ⟨5, 0, 5⟩ } := by
  refine ⟨?_, ?_, by rfl⟩
  · unfold adminHandleFileUploads
    simp [hv]
  · unfold doctorHandleFileUploads
    simp [hv]

/-- Witness for C9 with an empty valid list against an accepting server. -/
theorem c9_empty_valid_no_upload_witness :
    adminHandleFileUploads servOkW ([] : List Nat) = [] ∧
    doctorHandleFileUploads servOkW ([] : List Nat) = [] := by
  have h := c9_empty_valid_no_upload Nat servOkW [] (by rfl)
  exact ⟨h.1, h.2.1⟩

/-- Claim C10.  On an input whose every line is blank after trimming, the
filtered line list is empty and `lines[0].includes(...)` dereferences
`undefined`: both parsers throw (modelled as `none`) instead of returning a
result. -/
theorem c10_blank_input_throws (csv : String) (pids vids kpids kdids : List String)
    (now : Nat) (today : String) (h : ∀ l ∈ jsSplitChar '\n' csv, jsTrim l = "") :
    parsePatientCSV csv pids now today = none ∧
    parseVisitCSV csv vids kpids kdids now today = none := by
  have hfl : filteredLines csv = [] := by
    unfold filteredLines
    rw [List.filter_eq_nil_iff]
    intro a ha
    simp [h a ha]
  exact ⟨by rw [parsePatientCSV, hfl], by rw [parseVisitCSV, hfl]⟩

/-- Witness for C10 on a file of blank and whitespace-only lines. -/
theorem c10_blank_input_throws_witness :
    parsePatientCSV "\n  \n\t" [] 0 "D" = none ∧
    parseVisitCSV "\n  \n\t" [] [] [] 0 "D" = none :=
  c10_blank_input_throws "\n  \n\t" [] [] [] [] 0 "D" (by decide)
